import Mathlib

/-!
# awdl-helper (`src/Helper/helper.c`)

A shallow embedding of the setuid helper and the properties of its `main`.

* C strings are the bytes that stand before the terminating NUL, so none of
  them is 0 and each is below 256.
* The operating system is a pair of outcomes: what `setuid(0)` answers and what
  `execl` answers, together with the `strerror` table that `perror` prints from.
* A run of `main` is the list of calls it makes to the outside world (in order)
  and the way it ends: a return status, or the replacement of the process image.
* `execl` is `execve` with the `environ` of the calling process, which `main`
  receives from its caller and never modifies.
* The same control flow is given a second time as a machine that performs one
  checked operation per step, to speak about the order of the operations.
-/

namespace AWDLHelper

/-! ## Data model -/

/-- Bytes of an ASCII literal of the source. -/
def lit (s : String) : List Nat := s.data.map Char.toNat

/-- A byte that may stand inside a C string: not the terminator, and one byte wide. -/
def isStrByte (b : Nat) : Bool := decide (0 < b) && decide (b < 256)

/-- A NUL-terminated C string, held as the bytes before its terminator. -/
structure CString where
  bytes : List Nat
  wf : bytes.all isStrByte = true
deriving DecidableEq

/-- The literal `"up"`. -/
def str_up : CString := ⟨lit "up", by decide⟩
/-- The literal `"down"`. -/
def str_down : CString := ⟨lit "down", by decide⟩
/-- The literal `"/sbin/ifconfig"`. -/
def str_sbin_ifconfig : CString := ⟨lit "/sbin/ifconfig", by decide⟩
/-- The literal `"ifconfig"`. -/
def str_ifconfig : CString := ⟨lit "ifconfig", by decide⟩
/-- The literal `"awdl0"`. -/
def str_awdl0 : CString := ⟨lit "awdl0", by decide⟩

/-- Outcome of a system call: success, or failure with the `errno` it sets. -/
inductive SysResult where
  | ok
  | error (errno : Nat)
deriving DecidableEq, Repr

/-- Value returned to the C caller: 0 on success, -1 on failure. -/
def SysResult.ret : SysResult → Int
  | .ok => 0
  | .error _ => -1

/-- Value of `errno` after the call: the one it set on failure. -/
def SysResult.errno : SysResult → Nat
  | .ok => 0
  | .error e => e

/-- The outcomes that the outside world contributes to one run. -/
structure OS where
  /-- what `setuid(0)` answers -/
  setuid : SysResult
  /-- what `execl` answers: `ok` replaces the process image and never returns -/
  execl : SysResult
  /-- the message table of `strerror` -/
  strerror : Nat → List Nat

/-- The process as it is handed to `main`: the argument vector (`argc` is its
length) and the `environ` that the caller passed to the process. -/
structure Proc where
  argv : List CString
  environ : List CString

/-- A call that `main` makes to the outside world. -/
inductive Event where
  | write (fd : Nat) (bytes : List Nat)
  | setuid (uid : Nat)
  | execve (path : CString) (argv : List CString) (envp : List CString)
deriving DecidableEq

/-- How a run ends. -/
inductive Outcome where
  | returned (status : Int)
  | replaced
deriving DecidableEq

/-- A run: the calls made, in order, and the way it ended. -/
structure Run where
  trace : List Event
  result : Outcome
deriving DecidableEq

/-! ## Library functions used by `main` -/

/-- File descriptor of `stderr`. -/
def stderr : Nat := 2

/-- `strcmp` of the C library: the difference of the first pair of bytes that
differ, the end of a string reading as the terminator 0. -/
def strcmp : List Nat → List Nat → Int
  | [], [] => 0
  | [], b :: _ => 0 - (b : Int)
  | a :: _, [] => (a : Int) - 0
  | a :: s1, b :: s2 => if a = b then strcmp s1 s2 else (a : Int) - (b : Int)

/-- The text that `printf`-style formatting produces for a format whose only
conversions are `%s`: each `%s` is replaced by the next argument. -/
def format : List Nat → List (List Nat) → List Nat
  | [], _ => []
  | [c], _ => [c]
  | c :: d :: rest, args =>
    if c = 37 ∧ d = 115 then
      match args with
      | [] => format rest []
      | a :: as => a ++ format rest as
    else c :: format (d :: rest) args

/-- `fprintf(stream, fmt, args...)`: one write of the formatted text. -/
def fprintf (stream : Nat) (fmt : List Nat) (args : List (List Nat)) : Event :=
  .write stream (format fmt args)

/-- `perror(s)`: writes `s`, a colon and a blank, the message of `errno`, and a
newline to `stderr`. -/
def perror (os : OS) (errno : Nat) (s : List Nat) : Event :=
  .write stderr (s ++ lit ": " ++ os.strerror errno ++ lit "\n")

/-- `execl(path, arg0, ..., NULL)`: `execve` of `path` with the listed arguments
and the `environ` of the calling process. -/
def execl (environ : List CString) (path : CString) (args : List CString) : Event :=
  .execve path args environ

/-! ## The program -/

/-- The function `main` of `helper.c`. -/
def main (os : OS) (p : Proc) : Run :=
  let argc := p.argv.length
  if h : argc ≠ 2 then
    ⟨[fprintf stderr (lit "Usage: awdl-helper up|down\n") []], .returned 1⟩
  else if os.setuid.ret ≠ 0 then
    ⟨[.setuid 0, perror os os.setuid.errno (lit "setuid failed")], .returned 1⟩
  else
    let action := p.argv.get ⟨1, by omega⟩
    if strcmp action.bytes (lit "up") ≠ 0 ∧ strcmp action.bytes (lit "down") ≠ 0 then
      ⟨[.setuid 0, fprintf stderr (lit "Invalid action: %s\n") [action.bytes]], .returned 1⟩
    else
      match os.execl with
      | .ok =>
        ⟨[.setuid 0, execl p.environ str_sbin_ifconfig [str_ifconfig, str_awdl0, action]],
          .replaced⟩
      | .error e =>
        ⟨[.setuid 0, execl p.environ str_sbin_ifconfig [str_ifconfig, str_awdl0, action],
            perror os e (lit "execl failed")],
          .returned 1⟩

/-! ## Observations on a run -/

/-- Is the call a replacement of the process image? -/
def Event.isExec : Event → Bool
  | .execve _ _ _ => true
  | _ => false

/-- Is the call a change of the user identity? -/
def Event.isSetuid : Event → Bool
  | .setuid _ => true
  | _ => false

/-- The text of a write to the error stream. -/
def Event.stderrText : Event → Option (List Nat)
  | .write fd bytes => if fd = stderr then some bytes else none
  | _ => none

/-- Path and argument list of a replacement of the process image. -/
def Event.execPathArgs : Event → Option (CString × List CString)
  | .execve path argv _ => some (path, argv)
  | _ => none

/-- Environment handed over by a replacement of the process image. -/
def Event.execEnv : Event → Option (List CString)
  | .execve _ _ envp => some envp
  | _ => none

/-- The four kinds of diagnostic. -/
inductive DiagKind where
  | usage
  | escalation
  | invalidAction
  | dispatch
deriving DecidableEq

/-- What a diagnostic of each kind looks like on the error stream. -/
def DiagKind.describes (os : OS) : DiagKind → List Nat → Prop
  | .usage, m => m = lit "Usage: awdl-helper up|down\n"
  | .escalation, m => ∃ e, m = lit "setuid failed: " ++ os.strerror e ++ lit "\n"
  | .invalidAction, m => ∃ a : CString, m = lit "Invalid action: " ++ a.bytes ++ lit "\n"
  | .dispatch, m => ∃ e, m = lit "execl failed: " ++ os.strerror e ++ lit "\n"

/-- First byte of a diagnostic of each kind. -/
def DiagKind.firstByte : DiagKind → Nat
  | .usage => 85
  | .escalation => 115
  | .invalidAction => 73
  | .dispatch => 101

/-! ## The control flow of `main`, one checked operation at a time -/

/-- The four checked operations of `main`, named by what they do: the test of
`argc` (line 10), the call of `setuid` (line 16), the comparison of the action
(lines 21-23), the call of `execl` (line 29). -/
inductive Pc where
  | arity
  | escalate
  | validate
  | dispatch
deriving DecidableEq

/-- Where control is: before an operation, finished, or in undefined behaviour
(a read of `argv[1]` that is out of bounds). -/
inductive Ctl where
  | running (pc : Pc)
  | done (o : Outcome)
  | undefined
deriving DecidableEq

/-- State of the run: where control is, and the calls made so far. -/
structure Config where
  ctl : Ctl
  trace : List Event
deriving DecidableEq

/-- One checked operation of `main`, with its failure exit. -/
def step (os : OS) (p : Proc) (pc : Pc) (trace : List Event) : Config :=
  match pc with
  | .arity =>
    if p.argv.length ≠ 2 then
      ⟨.done (.returned 1), trace ++ [fprintf stderr (lit "Usage: awdl-helper up|down\n") []]⟩
    else ⟨.running .escalate, trace⟩
  | .escalate =>
    if os.setuid.ret ≠ 0 then
      ⟨.done (.returned 1),
        trace ++ [.setuid 0, perror os os.setuid.errno (lit "setuid failed")]⟩
    else ⟨.running .validate, trace ++ [.setuid 0]⟩
  | .validate =>
    match p.argv[1]? with
    | none => ⟨.undefined, trace⟩
    | some action =>
      if strcmp action.bytes (lit "up") ≠ 0 ∧ strcmp action.bytes (lit "down") ≠ 0 then
        ⟨.done (.returned 1),
          trace ++ [fprintf stderr (lit "Invalid action: %s\n") [action.bytes]]⟩
      else ⟨.running .dispatch, trace⟩
  | .dispatch =>
    match p.argv[1]? with
    | none => ⟨.undefined, trace⟩
    | some action =>
      match os.execl with
      | .ok =>
        ⟨.done .replaced,
          trace ++ [execl p.environ str_sbin_ifconfig [str_ifconfig, str_awdl0, action]]⟩
      | .error e =>
        ⟨.done (.returned 1),
          trace ++ [execl p.environ str_sbin_ifconfig [str_ifconfig, str_awdl0, action],
            perror os e (lit "execl failed")]⟩

/-- Runs the operations from a state, at most `fuel` of them: the operations
performed, in order, and the state reached. -/
def runFrom (os : OS) (p : Proc) : Nat → Config → List Pc × Config
  | 0, c => ([], c)
  | fuel + 1, c =>
    match c.ctl with
    | .running pc =>
      let r := runFrom os p fuel (step os p pc c.trace)
      (pc :: r.1, r.2)
    | _ => ([], c)

/-- The state at the entry of `main`. -/
def start : Config := ⟨.running .arity, []⟩

/-- The fixed order of the operations. -/
def programOrder : List Pc := [.arity, .escalate, .validate, .dispatch]

/-! ## Sample inputs -/

/-- An operating system on which both calls succeed. -/
def osGood : OS := ⟨.ok, .ok, fun _ => lit "Unknown error"⟩
/-- An operating system that refuses the change of identity (EPERM). -/
def osNoSetuid : OS := ⟨.error 1, .ok, fun _ => lit "Operation not permitted"⟩
/-- An operating system on which the utility is missing (ENOENT). -/
def osNoExec : OS := ⟨.ok, .error 2, fun _ => lit "No such file or directory"⟩
/-- The program name. -/
def str_name : CString := ⟨lit "awdl-helper", by decide⟩
/-- Another program name. -/
def str_other_name : CString := ⟨lit "./x", by decide⟩
/-- An argument with shell metacharacters. -/
def str_inject : CString := ⟨lit "up && whoami", by decide⟩
/-- An argument with a path separator. -/
def str_dotdot : CString := ⟨lit "../down", by decide⟩
/-- An argument that has both actions as substrings. -/
def str_updown : CString := ⟨lit "updown", by decide⟩
/-- The empty argument. -/
def str_empty : CString := ⟨[], by decide⟩
/-- A case variant of an action. -/
def str_Up : CString := ⟨lit "Up", by decide⟩
/-- An argument that is no action. -/
def str_foo : CString := ⟨lit "foo", by decide⟩
/-- An environment entry. -/
def str_env : CString := ⟨lit "PATH=/tmp/evil", by decide⟩

/-! ## Lemmas -/

theorem strcmp_self (a : List Nat) : strcmp a a = 0 := by
  induction a with
  | nil => rfl
  | cons x xs ih => simp [strcmp, ih]

theorem strcmp_eq_zero (a b : List Nat) (ha : a.all isStrByte = true)
    (hb : b.all isStrByte = true) : strcmp a b = 0 ↔ a = b := by
  constructor
  · intro h
    induction a generalizing b with
    | nil =>
      cases b with
      | nil => rfl
      | cons y ys =>
        simp [strcmp, isStrByte] at h hb
        omega
    | cons x xs ih =>
      cases b with
      | nil =>
        simp [strcmp, isStrByte] at h ha
        omega
      | cons y ys =>
        simp only [strcmp] at h
        simp only [List.all_cons, Bool.and_eq_true] at ha hb
        by_cases hxy : x = y
        · simp [hxy] at h
          rw [hxy, ih ys ha.2 hb.2 h]
        · simp [hxy] at h
          omega
  · rintro rfl
    exact strcmp_self a

theorem CString.eq_of_bytes {a b : CString} (h : a.bytes = b.bytes) : a = b := by
  cases a; cases b; simp at h; subst h; rfl

theorem strcmp_up (a : CString) : strcmp a.bytes (lit "up") = 0 ↔ a.bytes = lit "up" :=
  strcmp_eq_zero a.bytes (lit "up") a.wf (by decide)

theorem strcmp_down (a : CString) : strcmp a.bytes (lit "down") = 0 ↔ a.bytes = lit "down" :=
  strcmp_eq_zero a.bytes (lit "down") a.wf (by decide)

theorem format_usage :
    format (lit "Usage: awdl-helper up|down\n") [] = lit "Usage: awdl-helper up|down\n" := by
  decide

theorem format_invalid (a : List Nat) :
    format (lit "Invalid action: %s\n") [a] = lit "Invalid action: " ++ a ++ lit "\n" := rfl

theorem argv_pair {l : List CString} (h : l.length = 2) : ∃ n a, l = [n, a] := by
  match l, h with
  | [n, a], _ => exact ⟨n, a, rfl⟩

/-- The run of `main` when the argument count is not two. -/
theorem main_usage (os : OS) (p : Proc) (h : p.argv.length ≠ 2) :
    main os p = ⟨[.write stderr (lit "Usage: awdl-helper up|down\n")], .returned 1⟩ := by
  simp [main, h, fprintf, format_usage]

/-- The run of `main` on one argument, when `setuid` fails. -/
theorem main_setuid_error (os : OS) (n a : CString) (env : List CString) (e : Nat)
    (hs : os.setuid = .error e) :
    main os ⟨[n, a], env⟩ =
      ⟨[.setuid 0, .write stderr (lit "setuid failed" ++ lit ": " ++ os.strerror e ++ lit "\n")],
        .returned 1⟩ := by
  simp [main, hs, SysResult.ret, SysResult.errno, perror]

/-- The run of `main` on one argument that is no action, when `setuid` succeeds. -/
theorem main_invalid (os : OS) (n a : CString) (env : List CString)
    (hs : os.setuid = .ok) (h1 : a.bytes ≠ lit "up") (h2 : a.bytes ≠ lit "down") :
    main os ⟨[n, a], env⟩ =
      ⟨[.setuid 0, .write stderr (lit "Invalid action: " ++ a.bytes ++ lit "\n")],
        .returned 1⟩ := by
  have e1 : strcmp a.bytes (lit "up") ≠ 0 := fun h => h1 ((strcmp_up a).1 h)
  have e2 : strcmp a.bytes (lit "down") ≠ 0 := fun h => h2 ((strcmp_down a).1 h)
  simp [main, hs, SysResult.ret, e1, e2, fprintf, format_invalid]

/-- The run of `main` on an action, when `setuid` succeeds. -/
theorem main_valid (os : OS) (n a : CString) (env : List CString)
    (hs : os.setuid = .ok) (ha : a.bytes = lit "up" ∨ a.bytes = lit "down") :
    main os ⟨[n, a], env⟩ =
      match os.execl with
      | .ok =>
        ⟨[.setuid 0, .execve str_sbin_ifconfig [str_ifconfig, str_awdl0, a] env], .replaced⟩
      | .error e =>
        ⟨[.setuid 0, .execve str_sbin_ifconfig [str_ifconfig, str_awdl0, a] env,
            .write stderr (lit "execl failed" ++ lit ": " ++ os.strerror e ++ lit "\n")],
          .returned 1⟩ := by
  have e : ¬ (strcmp a.bytes (lit "up") ≠ 0 ∧ strcmp a.bytes (lit "down") ≠ 0) := by
    rcases ha with h | h
    · exact fun c => c.1 ((strcmp_up a).2 h)
    · exact fun c => c.2 ((strcmp_down a).2 h)
  unfold main
  simp only [List.length_cons, List.length_nil]
  simp [hs, SysResult.ret, execl, perror]
  intro c1 c2
  exact absurd ⟨c1, c2⟩ e

/-- Every run of `main` has one of five shapes. -/
theorem main_cases (os : OS) (p : Proc) :
    (p.argv.length ≠ 2 ∧
      main os p = ⟨[.write stderr (lit "Usage: awdl-helper up|down\n")], .returned 1⟩) ∨
    (∃ n a e, p.argv = [n, a] ∧ os.setuid = .error e ∧
      main os p =
        ⟨[.setuid 0, .write stderr (lit "setuid failed: " ++ os.strerror e ++ lit "\n")],
          .returned 1⟩) ∨
    (∃ n a, p.argv = [n, a] ∧ os.setuid = .ok ∧ a.bytes ≠ lit "up" ∧ a.bytes ≠ lit "down" ∧
      main os p =
        ⟨[.setuid 0, .write stderr (lit "Invalid action: " ++ a.bytes ++ lit "\n")],
          .returned 1⟩) ∨
    (∃ n a, p.argv = [n, a] ∧ os.setuid = .ok ∧ (a = str_up ∨ a = str_down) ∧
      os.execl = .ok ∧
      main os p =
        ⟨[.setuid 0, .execve str_sbin_ifconfig [str_ifconfig, str_awdl0, a] p.environ],
          .replaced⟩) ∨
    (∃ n a e, p.argv = [n, a] ∧ os.setuid = .ok ∧ (a = str_up ∨ a = str_down) ∧
      os.execl = .error e ∧
      main os p =
        ⟨[.setuid 0, .execve str_sbin_ifconfig [str_ifconfig, str_awdl0, a] p.environ,
            .write stderr (lit "execl failed: " ++ os.strerror e ++ lit "\n")],
          .returned 1⟩) := by
  by_cases hlen : p.argv.length ≠ 2
  · exact Or.inl ⟨hlen, main_usage os p hlen⟩
  · obtain ⟨n, a, hna⟩ := argv_pair (not_not.1 hlen)
    obtain ⟨argv, env⟩ := p
    simp only at hna
    subst hna
    right
    cases hs : os.setuid with
    | error e =>
      left
      refine ⟨n, a, e, rfl, rfl, ?_⟩
      rw [main_setuid_error os n a env e hs]
      simp [lit]
    | ok =>
      right
      by_cases ha : a.bytes = lit "up" ∨ a.bytes = lit "down"
      · right
        have ha2 : a = str_up ∨ a = str_down :=
          ha.imp (fun h => CString.eq_of_bytes h) (fun h => CString.eq_of_bytes h)
        have hm := main_valid os n a env hs ha
        cases he : os.execl with
        | ok =>
          left
          rw [he] at hm
          exact ⟨n, a, rfl, rfl, ha2, rfl, hm⟩
        | error e =>
          right
          rw [he] at hm
          refine ⟨n, a, e, rfl, rfl, ha2, rfl, ?_⟩
          rw [hm]
          simp [lit]
      · left
        have h1 : a.bytes ≠ lit "up" := fun h => ha (Or.inl h)
        have h2 : a.bytes ≠ lit "down" := fun h => ha (Or.inr h)
        exact ⟨n, a, rfl, rfl, h1, h2, main_invalid os n a env hs h1 h2⟩

/-- A diagnostic of a kind starts with the first byte of that kind. -/
theorem describes_firstByte (os : OS) (k : DiagKind) (m : List Nat) (h : k.describes os m) :
    m.head? = some k.firstByte := by
  cases k
  · simp only [DiagKind.describes] at h
    subst h
    decide
  · obtain ⟨e, rfl⟩ := h
    simp [lit, DiagKind.firstByte]
  · obtain ⟨a, rfl⟩ := h
    simp [lit, DiagKind.firstByte]
  · obtain ⟨e, rfl⟩ := h
    simp [lit, DiagKind.firstByte]

/-- A text is a diagnostic of at most one kind. -/
theorem describes_unique (os : OS) (k k' : DiagKind) (m : List Nat)
    (h : k.describes os m) (h' : k'.describes os m) : k' = k := by
  have e := (describes_firstByte os k m h).symm.trans (describes_firstByte os k' m h')
  cases k <;> cases k' <;> first | rfl | (simp [DiagKind.firstByte] at e)

/-- A finished run performs no further operation. -/
theorem runFrom_done (os : OS) (p : Proc) (k : Nat) (o : Outcome) (t : List Event) :
    runFrom os p k ⟨.done o, t⟩ = ([], ⟨.done o, t⟩) := by
  cases k <;> rfl

/-- Four operations of fuel are enough: the operations performed and the state
reached, for each of the five shapes of a run. -/
theorem run_shape (os : OS) (p : Proc) (m : Nat) :
    (runFrom os p (m + 4) start).2 = ⟨.done (main os p).result, (main os p).trace⟩ ∧
    ((p.argv.length ≠ 2 ∧ (runFrom os p (m + 4) start).1 = [.arity] ∧
        main os p = ⟨[.write stderr (lit "Usage: awdl-helper up|down\n")], .returned 1⟩) ∨
     (∃ n a e, p.argv = [n, a] ∧ os.setuid = .error e ∧
        (runFrom os p (m + 4) start).1 = [.arity, .escalate] ∧
        main os p =
          ⟨[.setuid 0, .write stderr (lit "setuid failed: " ++ os.strerror e ++ lit "\n")],
            .returned 1⟩) ∨
     (∃ n a, p.argv = [n, a] ∧ os.setuid = .ok ∧ a.bytes ≠ lit "up" ∧ a.bytes ≠ lit "down" ∧
        (runFrom os p (m + 4) start).1 = [.arity, .escalate, .validate] ∧
        main os p =
          ⟨[.setuid 0, .write stderr (lit "Invalid action: " ++ a.bytes ++ lit "\n")],
            .returned 1⟩) ∨
     (∃ n a, p.argv = [n, a] ∧ os.setuid = .ok ∧ (a = str_up ∨ a = str_down) ∧
        (runFrom os p (m + 4) start).1 = [.arity, .escalate, .validate, .dispatch] ∧
        ∃ rest, (main os p).trace =
          .setuid 0 :: .execve str_sbin_ifconfig [str_ifconfig, str_awdl0, a] p.environ :: rest ∧
          ∀ e ∈ rest, e.isExec = false ∧ e.isSetuid = false)) := by
  rcases main_cases os p with ⟨hl, hm⟩ | ⟨n, a, e, hp, hs, hm⟩ | ⟨n, a, hp, hs, h1, h2, hm⟩ |
      ⟨n, a, hp, hs, ha, he, hm⟩ | ⟨n, a, e, hp, hs, ha, he, hm⟩
  · refine ⟨?_, Or.inl ⟨hl, ?_, hm⟩⟩ <;> try rw [hm]
    all_goals
      simp [runFrom, step, start, hl, fprintf, format_usage]
  · refine ⟨?_, Or.inr (Or.inl ⟨n, a, e, hp, hs, ?_, hm⟩)⟩ <;> try rw [hm]
    all_goals
      simp [runFrom, step, start, hp, hs, SysResult.ret, SysResult.errno, perror, lit]
  · have e1 : strcmp a.bytes (lit "up") ≠ 0 := fun h => h1 ((strcmp_up a).1 h)
    have e2 : strcmp a.bytes (lit "down") ≠ 0 := fun h => h2 ((strcmp_down a).1 h)
    refine ⟨?_, Or.inr (Or.inr (Or.inl ⟨n, a, hp, hs, h1, h2, ?_, hm⟩))⟩ <;> try rw [hm]
    all_goals
      simp [runFrom, step, start, hp, hs, SysResult.ret, e1, e2, fprintf, format_invalid]
  · have hu : strcmp str_up.bytes (lit "up") = 0 := by decide
    have hd : strcmp str_down.bytes (lit "down") = 0 := by decide
    refine ⟨?_, Or.inr (Or.inr (Or.inr ⟨n, a, hp, hs, ha, ?_, [], ?_, ?_⟩))⟩
    · rw [hm]
      rcases ha with rfl | rfl <;>
        simp [runFrom, runFrom_done, step, start, hp, hs, he, SysResult.ret, hu, hd, execl]
    · rcases ha with rfl | rfl <;>
        simp [runFrom, runFrom_done, step, start, hp, hs, he, SysResult.ret, hu, hd, execl]
    · rw [hm]
    · simp
  · have hu : strcmp str_up.bytes (lit "up") = 0 := by decide
    have hd : strcmp str_down.bytes (lit "down") = 0 := by decide
    refine ⟨?_, Or.inr (Or.inr (Or.inr ⟨n, a, hp, hs, ha, ?_,
      [.write stderr (lit "execl failed: " ++ os.strerror e ++ lit "\n")], ?_, ?_⟩))⟩
    · rw [hm]
      rcases ha with rfl | rfl <;>
        simp [runFrom, runFrom_done, step, start, hp, hs, he, SysResult.ret, hu, hd, execl,
          perror] <;>
        simp [lit]
    · rcases ha with rfl | rfl <;>
        simp [runFrom, runFrom_done, step, start, hp, hs, he, SysResult.ret, hu, hd, execl,
          perror]
    · rw [hm]
    · simp [Event.isExec, Event.isSetuid]

/-! ## The claims -/

/-- C1: whatever the argument vector and the outcomes of `setuid` and `execl`,
every replacement of the process image that `main` attempts is the call of
`/sbin/ifconfig` with the arguments `ifconfig`, `awdl0` and `a`, where `a` is
`up` or `down`; and on one argument whose bytes are neither those of `up` nor
those of `down`, `main` returns the non-zero status 1 and attempts no
replacement, whether `setuid` succeeded or not. -/
theorem C1_exec_is_fixed_call (os : OS) (p : Proc) :
    (∀ e ∈ (main os p).trace, e.isExec = true →
      ∃ a, (a = str_up ∨ a = str_down) ∧
        e = .execve str_sbin_ifconfig [str_ifconfig, str_awdl0, a] p.environ) ∧
    (∀ n a : CString, p.argv = [n, a] → a.bytes ≠ lit "up" → a.bytes ≠ lit "down" →
      (main os p).result = .returned 1 ∧ (1 : Int) ≠ 0 ∧
      ∀ e ∈ (main os p).trace, e.isExec = false) := by
  constructor
  · intro e he hx
    rcases main_cases os p with ⟨_, hm⟩ | ⟨_, _, _, _, _, hm⟩ | ⟨_, _, _, _, _, _, hm⟩ |
      ⟨_, a, _, _, ha, _, hm⟩ | ⟨_, a, _, _, _, ha, _, hm⟩ <;> rw [hm] at he <;>
      simp only [List.mem_cons, List.mem_singleton, List.not_mem_nil, or_false] at he
    · subst he; simp [Event.isExec] at hx
    · rcases he with rfl | rfl <;> simp [Event.isExec] at hx
    · rcases he with rfl | rfl <;> simp [Event.isExec] at hx
    · rcases he with rfl | rfl
      · simp [Event.isExec] at hx
      · exact ⟨a, ha, rfl⟩
    · rcases he with rfl | rfl | rfl
      · simp [Event.isExec] at hx
      · exact ⟨a, ha, rfl⟩
      · simp [Event.isExec] at hx
  · intro n a hp h1 h2
    obtain ⟨argv, env⟩ := p
    simp only at hp
    subst hp
    cases hs : os.setuid with
    | error e =>
      rw [main_setuid_error os n a env e hs]
      simp [Event.isExec]
    | ok =>
      rw [main_invalid os n a env hs h1 h2]
      simp [Event.isExec]

/-- C1, at the argument `up && whoami` with a successful `setuid`, and at the
replacement that the argument `up` leads to. -/
theorem C1_exec_is_fixed_call_witness :
    ((main osGood ⟨[str_name, str_inject], [str_env]⟩).result = .returned 1 ∧ (1 : Int) ≠ 0 ∧
      ∀ e ∈ (main osGood ⟨[str_name, str_inject], [str_env]⟩).trace, e.isExec = false) ∧
    Event.execve str_sbin_ifconfig [str_ifconfig, str_awdl0, str_up] [str_env] ∈
      (main osGood ⟨[str_name, str_up], [str_env]⟩).trace ∧
    ∃ a, (a = str_up ∨ a = str_down) ∧
      Event.execve str_sbin_ifconfig [str_ifconfig, str_awdl0, str_up] [str_env] =
        .execve str_sbin_ifconfig [str_ifconfig, str_awdl0, a] [str_env] :=
  ⟨(C1_exec_is_fixed_call osGood ⟨[str_name, str_inject], [str_env]⟩).2 str_name str_inject rfl
      (by decide) (by decide),
    by decide,
    (C1_exec_is_fixed_call osGood ⟨[str_name, str_up], [str_env]⟩).1 _ (by decide) rfl⟩

/-- C2: when the argument count is not two, `main` writes the usage message to
the error stream and returns 1; that write is its only call, so it attempts
neither `setuid` nor `execl`. -/
theorem C2_wrong_arity_usage (os : OS) (p : Proc) (h : p.argv.length ≠ 2) :
    main os p = ⟨[.write stderr (lit "Usage: awdl-helper up|down\n")], .returned 1⟩ ∧
    ∀ e ∈ (main os p).trace, e.isSetuid = false ∧ e.isExec = false := by
  rw [main_usage os p h]
  simp [Event.isSetuid, Event.isExec]

/-- C2, at three arguments beyond the program name. -/
theorem C2_wrong_arity_usage_witness :
    [str_name, str_up, str_down, str_up].length ≠ 2 ∧
    main osGood ⟨[str_name, str_up, str_down, str_up], []⟩ =
      ⟨[.write stderr (lit "Usage: awdl-helper up|down\n")], .returned 1⟩ ∧
    ∀ e ∈ (main osGood ⟨[str_name, str_up, str_down, str_up], []⟩).trace,
      e.isSetuid = false ∧ e.isExec = false :=
  ⟨by decide, C2_wrong_arity_usage osGood ⟨[str_name, str_up, str_down, str_up], []⟩ (by decide)⟩

/-- C3: on the argument `up` (and likewise `down`), when `setuid(0)` succeeds,
the trace of `main` starts with the call `setuid(0)`, followed by the call of
`/sbin/ifconfig` with exactly the three arguments `ifconfig`, `awdl0`, `up`
(`down`), and nothing that follows is another replacement or another `setuid`:
there is exactly one replacement in the run. -/
theorem C3_valid_action_dispatch (os : OS) (n : CString) (env : List CString)
    (hs : os.setuid = .ok) :
    (∃ rest, (main os ⟨[n, str_up], env⟩).trace =
        .setuid 0 :: .execve str_sbin_ifconfig [str_ifconfig, str_awdl0, str_up] env :: rest ∧
      ∀ e ∈ rest, e.isExec = false ∧ e.isSetuid = false) ∧
    (∃ rest, (main os ⟨[n, str_down], env⟩).trace =
        .setuid 0 :: .execve str_sbin_ifconfig [str_ifconfig, str_awdl0, str_down] env :: rest ∧
      ∀ e ∈ rest, e.isExec = false ∧ e.isSetuid = false) ∧
    ((main os ⟨[n, str_up], env⟩).trace.filter Event.isExec).length = 1 ∧
    ((main os ⟨[n, str_down], env⟩).trace.filter Event.isExec).length = 1 ∧
    [str_ifconfig, str_awdl0, str_up].length = 3 ∧
    [str_ifconfig, str_awdl0, str_down].length = 3 := by
  have hu := main_valid os n str_up env hs (Or.inl rfl)
  have hd := main_valid os n str_down env hs (Or.inr rfl)
  rw [hu, hd]
  cases os.execl <;> simp [Event.isExec, Event.isSetuid]

/-- C3, on an operating system where both calls succeed. -/
theorem C3_valid_action_dispatch_witness :
    osGood.setuid = .ok ∧
    (main osGood ⟨[str_name, str_up], [str_env]⟩).trace =
      [.setuid 0, .execve str_sbin_ifconfig [str_ifconfig, str_awdl0, str_up] [str_env]] ∧
    ((main osGood ⟨[str_name, str_down], [str_env]⟩).trace.filter Event.isExec).length = 1 := by
  have h := C3_valid_action_dispatch osGood str_name [str_env] rfl
  exact ⟨rfl, by decide, h.2.2.2.1⟩

/-- C4: on one argument, whatever it is, when `setuid(0)` fails `main` makes the
call, reports `setuid failed` with the message of the error on the error
stream, and returns 1; it attempts no replacement, and the run does not depend
on the argument. -/
theorem C4_escalation_failure (os : OS) (n a : CString) (env : List CString) (e : Nat)
    (hs : os.setuid = .error e) :
    main os ⟨[n, a], env⟩ =
      ⟨[.setuid 0, .write stderr (lit "setuid failed: " ++ os.strerror e ++ lit "\n")],
        .returned 1⟩ ∧
    (∀ ev ∈ (main os ⟨[n, a], env⟩).trace, ev.isExec = false) ∧
    ∀ b : CString, main os ⟨[n, b], env⟩ = main os ⟨[n, a], env⟩ := by
  have h : ∀ b : CString, main os ⟨[n, b], env⟩ =
      ⟨[.setuid 0, .write stderr (lit "setuid failed: " ++ os.strerror e ++ lit "\n")],
        .returned 1⟩ := by
    intro b
    rw [main_setuid_error os n b env e hs]
    simp [lit]
  refine ⟨h a, ?_, fun b => (h b).trans (h a).symm⟩
  rw [h a]
  simp [Event.isExec]

/-- C4, at the valid action `up` on a system that refuses `setuid`. -/
theorem C4_escalation_failure_witness :
    osNoSetuid.setuid = .error 1 ∧
    main osNoSetuid ⟨[str_name, str_up], []⟩ =
      ⟨[.setuid 0, .write stderr (lit "setuid failed: Operation not permitted\n")],
        .returned 1⟩ ∧
    main osNoSetuid ⟨[str_name, str_inject], []⟩ = main osNoSetuid ⟨[str_name, str_up], []⟩ := by
  have h := C4_escalation_failure osNoSetuid str_name str_up [] 1 rfl
  exact ⟨rfl, by decide, h.2.2 str_inject⟩

/-- C5: on one argument whose bytes are neither those of `up` nor those of
`down`, when `setuid(0)` succeeds `main` writes `Invalid action: ` followed by
the bytes of the argument, unchanged, and a newline to the error stream,
returns 1, and attempts no replacement. -/
theorem C5_invalid_action (os : OS) (n a : CString) (env : List CString)
    (hs : os.setuid = .ok) (h1 : a.bytes ≠ lit "up") (h2 : a.bytes ≠ lit "down") :
    main os ⟨[n, a], env⟩ =
      ⟨[.setuid 0, .write stderr (lit "Invalid action: " ++ a.bytes ++ lit "\n")],
        .returned 1⟩ ∧
    ∀ ev ∈ (main os ⟨[n, a], env⟩).trace, ev.isExec = false := by
  rw [main_invalid os n a env hs h1 h2]
  simp [Event.isExec]

/-- C5, at the arguments `updown`, `Up`, the empty string and `../down`. -/
theorem C5_invalid_action_witness :
    osGood.setuid = .ok ∧ str_updown.bytes ≠ lit "up" ∧ str_updown.bytes ≠ lit "down" ∧
    (main osGood ⟨[str_name, str_updown], []⟩ =
      ⟨[.setuid 0, .write stderr (lit "Invalid action: updown\n")], .returned 1⟩ ∧
    ∀ ev ∈ (main osGood ⟨[str_name, str_updown], []⟩).trace, ev.isExec = false) ∧
    (main osGood ⟨[str_name, str_Up], []⟩).result = .returned 1 ∧
    (main osGood ⟨[str_name, str_empty], []⟩).trace =
      [.setuid 0, .write stderr (lit "Invalid action: \n")] ∧
    (main osGood ⟨[str_name, str_dotdot], []⟩).result = .returned 1 :=
  ⟨rfl, by decide, by decide,
    C5_invalid_action osGood str_name str_updown [] rfl (by decide) (by decide),
    congrArg Run.result
      (C5_invalid_action osGood str_name str_Up [] rfl (by decide) (by decide)).1,
    congrArg Run.trace
      (C5_invalid_action osGood str_name str_empty [] rfl (by decide) (by decide)).1,
    congrArg Run.result
      (C5_invalid_action osGood str_name str_dotdot [] rfl (by decide) (by decide)).1⟩

/-- C6: on the action `up` or `down`, when `setuid(0)` succeeds and `execl`
fails, `main` reports `execl failed` with the message of the error on the error
stream and returns 1, and the run holds exactly one replacement attempt. -/
theorem C6_dispatch_failure (os : OS) (n a : CString) (env : List CString) (e : Nat)
    (ha : a = str_up ∨ a = str_down) (hs : os.setuid = .ok) (he : os.execl = .error e) :
    main os ⟨[n, a], env⟩ =
      ⟨[.setuid 0, .execve str_sbin_ifconfig [str_ifconfig, str_awdl0, a] env,
          .write stderr (lit "execl failed: " ++ os.strerror e ++ lit "\n")],
        .returned 1⟩ ∧
    (main os ⟨[n, a], env⟩).trace.filter Event.isExec =
      [.execve str_sbin_ifconfig [str_ifconfig, str_awdl0, a] env] := by
  have hb : a.bytes = lit "up" ∨ a.bytes = lit "down" := by
    rcases ha with rfl | rfl
    · exact Or.inl rfl
    · exact Or.inr rfl
  have hm := main_valid os n a env hs hb
  rw [he] at hm
  rw [hm]
  simp [Event.isExec, lit]

/-- C6, at the action `down` on a system where the utility is missing. -/
theorem C6_dispatch_failure_witness :
    (str_down = str_up ∨ str_down = str_down) ∧ osNoExec.setuid = .ok ∧
    osNoExec.execl = .error 2 ∧
    main osNoExec ⟨[str_name, str_down], []⟩ =
      ⟨[.setuid 0, .execve str_sbin_ifconfig [str_ifconfig, str_awdl0, str_down] [],
          .write stderr (lit "execl failed: No such file or directory\n")],
        .returned 1⟩ ∧
    (main osNoExec ⟨[str_name, str_down], []⟩).trace.filter Event.isExec =
      [.execve str_sbin_ifconfig [str_ifconfig, str_awdl0, str_down] []] := by
  have h := C6_dispatch_failure osNoExec str_name str_down [] 2 (Or.inr rfl) rfl rfl
  exact ⟨Or.inr rfl, rfl, rfl, by decide, h.2⟩

/-- C7: whenever `main` returns, the status is 1 and the error stream has
received exactly one text, and that single text is a diagnostic of exactly one
of the four kinds (usage, escalation, invalid action, dispatch); `main` never
returns 0. -/
theorem C7_return_is_one_diagnostic (os : OS) (p : Proc) :
    (main os p).result ≠ .returned 0 ∧
    ∀ s, (main os p).result = .returned s →
      s = 1 ∧
      ∃ m, (main os p).trace.filterMap Event.stderrText = [m] ∧
        ∃ k : DiagKind, k.describes os m ∧ ∀ k' : DiagKind, k'.describes os m → k' = k := by
  rcases main_cases os p with ⟨_, hm⟩ | ⟨_, _, e, _, _, hm⟩ | ⟨_, a, _, _, _, _, hm⟩ |
      ⟨_, _, _, _, _, _, hm⟩ | ⟨_, _, e, _, _, _, _, hm⟩ <;> rw [hm] <;>
    refine ⟨by simp, ?_⟩ <;> intro s hs <;> simp only [Outcome.returned.injEq] at hs
  · have hd : DiagKind.usage.describes os (lit "Usage: awdl-helper up|down\n") := rfl
    exact ⟨hs.symm, _, by simp [Event.stderrText], .usage, hd,
      fun k' h' => describes_unique os _ k' _ hd h'⟩
  · have hd : DiagKind.escalation.describes os
        (lit "setuid failed: " ++ os.strerror e ++ lit "\n") := ⟨e, rfl⟩
    exact ⟨hs.symm, _, by simp [Event.stderrText], .escalation, hd,
      fun k' h' => describes_unique os _ k' _ hd h'⟩
  · have hd : DiagKind.invalidAction.describes os
        (lit "Invalid action: " ++ a.bytes ++ lit "\n") := ⟨a, rfl⟩
    exact ⟨hs.symm, _, by simp [Event.stderrText], .invalidAction, hd,
      fun k' h' => describes_unique os _ k' _ hd h'⟩
  · exact absurd hs (by simp)
  · have hd : DiagKind.dispatch.describes os
        (lit "execl failed: " ++ os.strerror e ++ lit "\n") := ⟨e, rfl⟩
    exact ⟨hs.symm, _, by simp [Event.stderrText], .dispatch, hd,
      fun k' h' => describes_unique os _ k' _ hd h'⟩

/-- C7, at a run in which the utility is missing. -/
theorem C7_return_is_one_diagnostic_witness :
    (main osNoExec ⟨[str_name, str_up], []⟩).result = .returned 1 ∧
    ((1 : Int) = 1 ∧
      ∃ m, (main osNoExec ⟨[str_name, str_up], []⟩).trace.filterMap Event.stderrText = [m] ∧
        ∃ k : DiagKind, k.describes osNoExec m ∧
          ∀ k' : DiagKind, k'.describes osNoExec m → k' = k) :=
  ⟨by decide,
    (C7_return_is_one_diagnostic osNoExec ⟨[str_name, str_up], []⟩).2 1 (by decide)⟩

/-- C8, as stated, fails: two runs with the same action `up`, the same program
name and the same outcomes of the system calls, whose callers differ in the
environment only, hand different environments to the new process image, each
its caller's own; the replacement calls of the two runs differ. -/
theorem C8_environment_reaches_image :
    (main osGood ⟨[str_name, str_up], [str_env]⟩).trace.filterMap Event.execEnv = [[str_env]] ∧
    (main osGood ⟨[str_name, str_up], []⟩).trace.filterMap Event.execEnv = [[]] ∧
    (main osGood ⟨[str_name, str_up], [str_env]⟩).trace.filter Event.isExec ≠
      (main osGood ⟨[str_name, str_up], []⟩).trace.filter Event.isExec := by
  decide

/-- C8, amended: two runs that agree on the action argument and on the outcomes
of the system calls, and differ in the program name and in the environment of
the caller, attempt replacements with the same path and the same argument list;
the program name is no part of it, and the environment handed to the new
process image is the environment of the caller of that run, unchanged. -/
theorem C8_path_and_args_only (os : OS) (n1 n2 a : CString) (env1 env2 : List CString) :
    (main os ⟨[n1, a], env1⟩).trace.filterMap Event.execPathArgs =
      (main os ⟨[n2, a], env2⟩).trace.filterMap Event.execPathArgs ∧
    (∀ pa ∈ (main os ⟨[n1, a], env1⟩).trace.filterMap Event.execPathArgs,
      pa = (str_sbin_ifconfig, [str_ifconfig, str_awdl0, a])) ∧
    (∀ envp ∈ (main os ⟨[n1, a], env1⟩).trace.filterMap Event.execEnv, envp = env1) := by
  cases hs : os.setuid with
  | error e =>
    rw [main_setuid_error os n1 a env1 e hs, main_setuid_error os n2 a env2 e hs]
    simp [Event.execPathArgs, Event.execEnv]
  | ok =>
    by_cases ha : a.bytes = lit "up" ∨ a.bytes = lit "down"
    · rw [main_valid os n1 a env1 hs ha, main_valid os n2 a env2 hs ha]
      cases os.execl <;> simp [Event.execPathArgs, Event.execEnv]
    · have h1 : a.bytes ≠ lit "up" := fun h => ha (Or.inl h)
      have h2 : a.bytes ≠ lit "down" := fun h => ha (Or.inr h)
      rw [main_invalid os n1 a env1 hs h1 h2, main_invalid os n2 a env2 hs h1 h2]
      simp [Event.execPathArgs, Event.execEnv]

/-- C8 amended, at two callers with different program names and environments. -/
theorem C8_path_and_args_only_witness :
    (main osGood ⟨[str_name, str_down], [str_env]⟩).trace.filterMap Event.execPathArgs =
      (main osGood ⟨[str_other_name, str_down], []⟩).trace.filterMap Event.execPathArgs ∧
    (str_sbin_ifconfig, [str_ifconfig, str_awdl0, str_down]) =
      (str_sbin_ifconfig, [str_ifconfig, str_awdl0, str_down]) ∧
    [str_env] = [str_env] :=
  have h := C8_path_and_args_only osGood str_name str_other_name str_down [str_env] []
  ⟨h.1, h.2.1 _ (by decide), h.2.2 _ (by decide)⟩

/-- C9: any two invocations with the same action `up` or `down` in which
`setuid(0)` succeeds attempt the same replacement, the call of `/sbin/ifconfig`
with the arguments `ifconfig`, `awdl0` and the action, whatever the program
names, the environments and the outcomes of `execl` in the two invocations;
`main` being a function of its arguments, no earlier invocation enters. -/
theorem C9_same_action_same_dispatch (os1 os2 : OS) (n1 n2 a : CString)
    (env1 env2 : List CString) (ha : a = str_up ∨ a = str_down)
    (h1 : os1.setuid = .ok) (h2 : os2.setuid = .ok) :
    (main os1 ⟨[n1, a], env1⟩).trace.filterMap Event.execPathArgs =
      [(str_sbin_ifconfig, [str_ifconfig, str_awdl0, a])] ∧
    (main os2 ⟨[n2, a], env2⟩).trace.filterMap Event.execPathArgs =
      (main os1 ⟨[n1, a], env1⟩).trace.filterMap Event.execPathArgs := by
  have hb : a.bytes = lit "up" ∨ a.bytes = lit "down" := by
    rcases ha with rfl | rfl
    · exact Or.inl rfl
    · exact Or.inr rfl
  rw [main_valid os1 n1 a env1 h1 hb, main_valid os2 n2 a env2 h2 hb]
  cases os1.execl <;> cases os2.execl <;> simp [Event.execPathArgs]

/-- C9, at the action `up` on two systems, one of which lacks the utility. -/
theorem C9_same_action_same_dispatch_witness :
    (str_up = str_up ∨ str_up = str_down) ∧ osGood.setuid = .ok ∧ osNoExec.setuid = .ok ∧
    (main osGood ⟨[str_name, str_up], [str_env]⟩).trace.filterMap Event.execPathArgs =
      [(str_sbin_ifconfig, [str_ifconfig, str_awdl0, str_up])] ∧
    (main osNoExec ⟨[str_other_name, str_up], []⟩).trace.filterMap Event.execPathArgs =
      (main osGood ⟨[str_name, str_up], [str_env]⟩).trace.filterMap Event.execPathArgs :=
  ⟨Or.inl rfl, rfl, rfl,
    C9_same_action_same_dispatch osGood osNoExec str_name str_other_name str_up [str_env] []
      (Or.inl rfl) rfl rfl⟩

/-- C10: run one checked operation at a time, with four operations of fuel or
more, `main` finishes, in the result and with the trace of `main`, and a
finished run performs nothing more. The operations performed are a prefix of
the order arity check, `setuid(0)`, validation of the action, `execl`, starting
with the arity check and without repetition. `setuid(0)` is attempted exactly
when the argument count is two (so before, and whatever, the action); the
action is inspected exactly when moreover `setuid` succeeded; `execl` is
attempted exactly when moreover the action is `up` or `down`. The trace holds
at most one `setuid` and at most one replacement. -/
theorem C10_linear_order (os : OS) (p : Proc) (fuel : Nat) (hf : 4 ≤ fuel) :
    (runFrom os p fuel start).2 = ⟨.done (main os p).result, (main os p).trace⟩ ∧
    (∀ k, runFrom os p k (runFrom os p fuel start).2 = ([], (runFrom os p fuel start).2)) ∧
    (runFrom os p fuel start).1 <+: programOrder ∧
    (runFrom os p fuel start).1.head? = some Pc.arity ∧
    (runFrom os p fuel start).1.Nodup ∧
    (Pc.escalate ∈ (runFrom os p fuel start).1 ↔ p.argv.length = 2) ∧
    (Event.setuid 0 ∈ (main os p).trace ↔ p.argv.length = 2) ∧
    (Pc.validate ∈ (runFrom os p fuel start).1 ↔ p.argv.length = 2 ∧ os.setuid = .ok) ∧
    (Pc.dispatch ∈ (runFrom os p fuel start).1 ↔
      ∃ n a, p.argv = [n, a] ∧ os.setuid = .ok ∧ (a = str_up ∨ a = str_down)) ∧
    ((∃ e ∈ (main os p).trace, e.isExec = true) ↔
      ∃ n a, p.argv = [n, a] ∧ os.setuid = .ok ∧ (a = str_up ∨ a = str_down)) ∧
    ((main os p).trace.filter Event.isSetuid).length ≤ 1 ∧
    ((main os p).trace.filter Event.isExec).length ≤ 1 := by
  obtain ⟨m, rfl⟩ : ∃ m, fuel = m + 4 := ⟨fuel - 4, by omega⟩
  obtain ⟨hfin, hshape⟩ := run_shape os p m
  refine ⟨hfin, fun k => by rw [hfin]; exact runFrom_done os p k _ _, ?_⟩
  rcases hshape with ⟨hl, hv, hm⟩ | ⟨n, a, e, hp, hs, hv, hm⟩ | ⟨n, a, hp, hs, h1, h2, hv, hm⟩ |
      ⟨n, a, hp, hs, ha, hv, rest, hm, hrest⟩
  · rw [hv, hm]
    refine ⟨by decide, rfl, by decide, ?_, ?_, ?_, ?_, ?_, ?_, ?_⟩
    · simp [hl]
    · simp [hl]
    · simp [hl]
    · refine iff_of_false (by simp) ?_
      rintro ⟨n, a, hp, -⟩
      exact hl (by simp [hp])
    · refine iff_of_false (by simp [Event.isExec]) ?_
      rintro ⟨n, a, hp, -⟩
      exact hl (by simp [hp])
    · simp [Event.isSetuid]
    · simp [Event.isExec]
  · rw [hv, hm]
    refine ⟨by decide, rfl, by decide, ?_, ?_, ?_, ?_, ?_, ?_, ?_⟩
    · simp [hp]
    · simp [hp]
    · simp [hp, hs]
    · simp [hs]
    · simp [hs, Event.isExec]
    · simp [Event.isSetuid]
    · simp [Event.isExec]
  · have hna : ¬ (a = str_up ∨ a = str_down) := by
      rintro (rfl | rfl)
      · exact h1 rfl
      · exact h2 rfl
    rw [hv, hm]
    refine ⟨by decide, rfl, by decide, ?_, ?_, ?_, ?_, ?_, ?_, ?_⟩
    · simp [hp]
    · simp [hp]
    · simp [hp, hs]
    · refine iff_of_false (by simp) ?_
      rintro ⟨n', a', hp', -, ha'⟩
      rw [hp] at hp'
      simp only [List.cons.injEq, and_true] at hp'
      exact hna (hp'.2 ▸ ha')
    · refine iff_of_false (by simp [Event.isExec]) ?_
      rintro ⟨n', a', hp', -, ha'⟩
      rw [hp] at hp'
      simp only [List.cons.injEq, and_true] at hp'
      exact hna (hp'.2 ▸ ha')
    · simp [Event.isSetuid]
    · simp [Event.isExec]
  · have hfs : rest.filter Event.isSetuid = [] :=
      List.filter_eq_nil_iff.2 fun e he => by simp [(hrest e he).2]
    have hfe : rest.filter Event.isExec = [] :=
      List.filter_eq_nil_iff.2 fun e he => by simp [(hrest e he).1]
    rw [hv, hm]
    refine ⟨by decide, rfl, by decide, ?_, ?_, ?_, ?_, ?_, ?_, ?_⟩
    · simp [hp]
    · simp [hp]
    · simp [hp, hs]
    · exact iff_of_true (by simp) ⟨n, a, hp, hs, ha⟩
    · exact iff_of_true ⟨_, List.mem_cons_of_mem _ (List.mem_cons_self _ _), rfl⟩
        ⟨n, a, hp, hs, ha⟩
    · simp [List.filter_cons, Event.isSetuid, hfs]
    · simp [List.filter_cons, Event.isExec, hfe]

/-- C10, at the single invalid argument `foo` with a successful `setuid`: the
escalation is attempted, the action is then rejected, no `execl` follows. -/
theorem C10_linear_order_witness :
    4 ≤ 4 ∧
    (runFrom osGood ⟨[str_name, str_foo], []⟩ 4 start).1 = [.arity, .escalate, .validate] ∧
    (runFrom osGood ⟨[str_name, str_foo], []⟩ 4 start).2 =
      ⟨.done (main osGood ⟨[str_name, str_foo], []⟩).result,
        (main osGood ⟨[str_name, str_foo], []⟩).trace⟩ ∧
    (Event.setuid 0 ∈ (main osGood ⟨[str_name, str_foo], []⟩).trace ↔
      [str_name, str_foo].length = 2) := by
  have h := C10_linear_order osGood ⟨[str_name, str_foo], []⟩ 4 (by decide)
  exact ⟨by decide, by decide, h.1, h.2.2.2.2.2.2.1⟩

end AWDLHelper
